import Mathlib

/-!
# Voice-driven reply-choice page (`frontend/app.js`)

A shallow embedding of the page script: the script's global variables and the
DOM nodes it touches become fields of one record `Page`, every function of the
script becomes a Lean function on that record, and the calls the script makes
on its collaborators (the speech recognizer, `fetch`, `alert`, `setTimeout`)
are recorded in log fields of the record.

Conventions.
* JavaScript values are the JSON values plus `undefined`.  Finite numbers are
  embedded in `ℚ`; the script performs no arithmetic on them, it only tests
  them for truthiness and for strict equality with `3`.
* An object is an association list in insertion order; a well-formed object
  has no repeated key.  (JavaScript lists integer-like keys first; no property
  below depends on the order of the keys.)
* `console` output and `loadAPIConfig`, which only logs, are left out.
* An `await` splits a function in two: the part before it runs in the turn of
  the caller, the part after it in the turn in which the awaited promise
  settles, on the page as it is then.
* The DOM nodes looked up at the top of the script (`recordButton`,
  `statusText`, `transcribedText`, `optionsContainer`, `loadingOverlay`,
  `option0..2` and their `.option-text` children) are assumed to exist.
* Text produced by the JavaScript engine itself (messages of `TypeError`s,
  the string conversion of a number) is taken from a `Host` record.
* A block that can raise returns the page it leaves together with the message
  of the error it raised, if any, so that what was written before the error
  is kept.
* The body of a request is the JSON value that `JSON.stringify` writes.
-/

namespace App

/-! ## JavaScript values -/

/-- A JavaScript number: `NaN`, the two infinities, or a finite value. -/
inductive JSNum where
  | nan
  | posInf
  | negInf
  | finite (q : ℚ)

/-- A JavaScript value as the script can meet it: a JSON value or `undefined`. -/
inductive JSVal where
  | undefined
  | null
  | bool (b : Bool)
  | num (n : JSNum)
  | str (s : String)
  | arr (items : List JSVal)
  | obj (fields : List (String × JSVal))

/-- A plain object: its own enumerable properties in property order. -/
abbrev Obj := List (String × JSVal)

/-- The test `v === null || v === undefined` of `generateResponses`. -/
def isNullish : JSVal → Bool
  | .undefined => true
  | .null => true
  | _ => false

/-- JavaScript truthiness (`ToBoolean`). -/
def truthy : JSVal → Bool
  | .undefined => false
  | .null => false
  | .bool b => b
  | .num .nan => false
  | .num (.finite q) => decide (q ≠ 0)
  | .num _ => true
  | .str s => decide (s ≠ "")
  | .arr _ => true
  | .obj _ => true

/-- Own-property lookup: `none` when the object has no such key. -/
def Obj.get : Obj → String → Option JSVal
  | [], _ => none
  | (k', v) :: rest, k => if k' = k then some v else Obj.get rest k

/-- The expression `o[k]`: a missing property reads as `undefined`. -/
def Obj.read (o : Obj) (k : String) : JSVal :=
  (o.get k).getD .undefined

/-- Property assignment `o[k] = v`: an existing key keeps its place, a new
key goes last. -/
def Obj.set : Obj → String → JSVal → Obj
  | [], k, v => [(k, v)]
  | (k', v') :: rest, k, v =>
    if k' = k then (k', v) :: rest else (k', v') :: Obj.set rest k v

/-- The statement `delete o[k]`. -/
def Obj.delete : Obj → String → Obj
  | [], _ => []
  | (k', v) :: rest, k =>
    if k' = k then Obj.delete rest k else (k', v) :: Obj.delete rest k

/-- The array `Object.keys(o)`. -/
def Obj.keys (o : Obj) : List String :=
  o.map Prod.fst

/-- Object spread `{ ...target, ...src }`: the properties of `src` are
assigned onto `target` in order. -/
def Obj.spread (target src : Obj) : Obj :=
  src.foldl (fun acc kv => acc.set kv.1 kv.2) target

/-- A well-formed object has no repeated key. -/
def Obj.WF (o : Obj) : Prop :=
  (o.keys).Nodup

instance (o : Obj) : Decidable o.WF :=
  inferInstanceAs (Decidable (List.Nodup _))

/-! ## API configuration and request payload -/

/-- The initial value of the global `apiConfig` (lines 6-13). -/
def initialApiConfig : Obj :=
  [("model", .null), ("temperature", .null), ("max_tokens", .null),
   ("top_p", .null), ("api_key", .null), ("api_url", .null)]

/-- The object literal `{ message: message, ...apiConfig, ...customParams }`
of `generateResponses` (lines 149-153). -/
def mergedPayload (apiConfig : Obj) (message : JSVal) (customParams : Obj) : Obj :=
  (Obj.spread [("message", message)] apiConfig).spread customParams

/-- The loop `Object.keys(payload).forEach(key => ...)` of `generateResponses`
(lines 156-160): every key whose value is `null` or `undefined` is deleted. -/
def stripNullish (payload : Obj) : Obj :=
  (payload.keys).foldl
    (fun p key => if isNullish (p.read key) then p.delete key else p) payload

/-- The payload handed to `JSON.stringify` by `generateResponses`
(lines 149-160). -/
def buildPayload (apiConfig : Obj) (message : JSVal) (customParams : Obj) : Obj :=
  stripNullish (mergedPayload apiConfig message customParams)

mutual
/-- The JSON value that `JSON.stringify(v)` writes; `none` when it writes
nothing (`undefined`).  `NaN` and the infinities are written as `null`. -/
def jsonOf : JSVal → Option JSVal
  | .undefined => none
  | .null => some .null
  | .bool b => some (.bool b)
  | .num (.finite q) => some (.num (.finite q))
  | .num _ => some .null
  | .str x => some (.str x)
  | .arr items => some (.arr (jsonOfItems items))
  | .obj fields => some (.obj (jsonOfFields fields))
/-- The elements of an array as `JSON.stringify` writes them: an element
that would write nothing is written as `null`. -/
def jsonOfItems : List JSVal → List JSVal
  | [] => []
  | x :: rest => (jsonOf x).getD .null :: jsonOfItems rest
/-- The properties of an object as `JSON.stringify` writes them: a property
whose value would write nothing is left out. -/
def jsonOfFields : List (String × JSVal) → List (String × JSVal)
  | [] => []
  | (k, v) :: rest =>
    match jsonOf v with
    | some w => (k, w) :: jsonOfFields rest
    | none => jsonOfFields rest
end

/-- The request body `JSON.stringify(payload)` of line 169, as the JSON
object the endpoint receives. -/
def requestBody (apiConfig : Obj) (message : JSVal) (customParams : Obj) : Obj :=
  jsonOfFields (buildPayload apiConfig message customParams)

/-- The value the merge `{message} < apiConfig < customParams` gives to a key:
the last of the three sources that has the key decides. -/
def mergedValue (apiConfig : Obj) (message : JSVal) (customParams : Obj)
    (k : String) : Option JSVal :=
  match customParams.get k with
  | some v => some v
  | none =>
    match apiConfig.get k with
    | some v => some v
    | none => if k = "message" then some message else none

/-- One sequence of `updateAPIConfig` patches applied to a configuration
(lines 203-206: `apiConfig = { ...apiConfig, ...config }`). -/
def applyPatches (apiConfig : Obj) (patches : List Obj) : Obj :=
  patches.foldl Obj.spread apiConfig

/-! ## The host environment -/

/-- Text that the JavaScript engine produces and the script only passes on. -/
structure Host where
  /-- The string conversion `String(n)` of a number. -/
  numberToString : JSNum → String
  /-- The message of the `TypeError` raised by reading property `k` of
  `null` or `undefined`. -/
  nullReadMessage : JSVal → String → String
  /-- The message of the `TypeError` raised by calling `options.forEach`
  on a value that has no such method. -/
  notFunctionMessage : String
  /-- The message of the `TypeError` raised by converting to a string an
  object that has no string conversion. -/
  notPrimitiveMessage : String

mutual
/-- The string conversion `String(v)` used by `new Error(v)` and by the
`textContent` setter, for a value parsed from JSON.  A parsed object whose own
property `toString` hides `Object.prototype.toString` has no string
conversion: the conversion raises a `TypeError`.  An array is converted by
`join`. -/
def Host.toStr (h : Host) : JSVal → Except String String
  | .undefined => .ok "undefined"
  | .null => .ok "null"
  | .bool b => .ok (if b then "true" else "false")
  | .num n => .ok (h.numberToString n)
  | .str x => .ok x
  | .arr items => Host.joinItems h items
  | .obj fields =>
    match Obj.get fields "toString" with
    | some _ => .error h.notPrimitiveMessage
    | none => .ok "[object Object]"
/-- The method `Array.prototype.join` with the separator `,`: `null` and
`undefined` elements are written as the empty string. -/
def Host.joinItems (h : Host) : List JSVal → Except String String
  | [] => .ok ""
  | x :: rest =>
    match ((match x with
            | .undefined => .ok ""
            | .null => .ok ""
            | .bool b => Host.toStr h (.bool b)
            | .num n => Host.toStr h (.num n)
            | .str y => Host.toStr h (.str y)
            | .arr items => Host.toStr h (.arr items)
            | .obj fields => Host.toStr h (.obj fields)) : Except String String) with
    | .error m => .error m
    | .ok a =>
      match Host.joinItems h rest with
      | .error m => .error m
      | .ok b => .ok (if rest.isEmpty then a else a ++ "," ++ b)
end

/-- The assignment `node.textContent = v` (line 211): the text the node shows
afterwards, or the message of the `TypeError` the assignment raises.  `null`
and `undefined` clear the node. -/
def Host.textContent (h : Host) : JSVal → Except String String
  | .null => .ok ""
  | .undefined => .ok ""
  | v => h.toStr v

/-- The number of UTF-16 code units of a string (its JavaScript `length`). -/
def utf16Length (s : String) : Nat :=
  (s.toList.map (fun c => if c.val.toNat < 65536 then 1 else 2)).sum

/-- Reading property `k` of a value (`v.k`).  Only the properties the script
reads are distinguished: own properties of objects and `length` of arrays and
strings. -/
def Host.prop (h : Host) (v : JSVal) (k : String) : Except String JSVal :=
  match v with
  | .undefined => .error (h.nullReadMessage v k)
  | .null => .error (h.nullReadMessage v k)
  | .obj fields => .ok (Obj.read fields k)
  | .arr items => .ok (if k = "length" then .num (.finite items.length) else .undefined)
  | .str x => .ok (if k = "length" then .num (.finite (utf16Length x)) else .undefined)
  | _ => .ok .undefined

/-- The comparison `v === 3`. -/
def strictEq3 : JSVal → Bool
  | .num (.finite q) => decide (q = 3)
  | _ => false

/-- The flag `response.ok`: the status is in the range 200-299. -/
def responseOk (status : Nat) : Bool :=
  decide (200 ≤ status ∧ status ≤ 299)

/-- What `await response.json()` yields: a parsed value, or a rejection
carrying the parser's message. -/
inductive Body where
  | malformed (message : String)
  | json (data : JSVal)

/-- How the `fetch` of `generateResponses` settles: rejected in transport
(with the error's message), or resolved with a status and a body. -/
inductive FetchOutcome where
  | rejected (message : String)
  | response (status : Nat) (body : Body)

/-! ## Page state -/

/-- A call made on the recognizer object. -/
inductive RecCall where
  | start
  | stop
  deriving DecidableEq, Repr

/-- One element of `optionItems`. -/
structure Slot where
  /-- The `textContent` of the `.option-text` child. -/
  text : String
  /-- Whether `classList` contains `selected`. -/
  selected : Bool
  /-- The `onclick` handler: `some i` is the closure `() => selectOption(i)`. -/
  onclick : Option Nat
  deriving DecidableEq, Repr

/-- A task registered with `setTimeout`.  The script registers one kind of
callback only, the auto-reset closure of `selectOption` (lines 237-240). -/
structure Timer where
  /-- The earliest time (in ms) at which the callback may run. -/
  due : Nat
  deriving DecidableEq, Repr

/-- The script's global variables, the DOM state it reads and writes, and the
log of the calls it makes on its collaborators. -/
structure Page where
  /-- Whether the global `recognition` is non-null (line 35). -/
  recognition : Bool
  /-- The global `isRecording`. -/
  isRecording : Bool
  /-- The global `apiConfig`. -/
  apiConfig : Obj
  /-- Whether `recordButton.classList` contains `recording`. -/
  buttonRecording : Bool
  /-- The text of the `.button-text` child of `recordButton`. -/
  buttonText : String
  /-- The field `statusText.textContent`. -/
  statusText : String
  /-- The field `transcribedText.textContent`. -/
  transcribedText : String
  /-- The field `optionsContainer.style.display`. -/
  optionsDisplay : String
  /-- The field `loadingOverlay.style.display`. -/
  loadingDisplay : String
  /-- The element `optionItems[0]`. -/
  option0 : Slot
  /-- The element `optionItems[1]`. -/
  option1 : Slot
  /-- The element `optionItems[2]`. -/
  option2 : Slot
  /-- Calls made on the recognizer, oldest first. -/
  recognizerCalls : List RecCall
  /-- Request bodies posted to `/api/generate-responses`, oldest first. -/
  requests : List Obj
  /-- The number of posted requests that have not settled yet. -/
  inFlight : Nat
  /-- Messages shown with `alert`, oldest first. -/
  alerts : List String
  /-- Pending `setTimeout` tasks, oldest first. -/
  timers : List Timer
  /-- The current time in ms. -/
  now : Nat

/-- The expression `optionItems[index]`: `none` stands for `undefined`. -/
def Page.optionItem (s : Page) : Nat → Option Slot
  | 0 => some s.option0
  | 1 => some s.option1
  | 2 => some s.option2
  | _ => none

/-- A mutation of the element `optionItems[index]`. -/
def Page.setOptionItem (s : Page) (index : Nat) (item : Slot) : Page :=
  match index with
  | 0 => { s with option0 := item }
  | 1 => { s with option1 := item }
  | 2 => { s with option2 := item }
  | _ => s

/-- The loop `optionItems.forEach(item => ...)`. -/
def Page.forEachOption (s : Page) (f : Slot → Slot) : Page :=
  { s with option0 := f s.option0, option1 := f s.option1, option2 := f s.option2 }

/-- The number of option slots marked `selected`. -/
def Page.selectedCount (s : Page) : Nat :=
  (if s.option0.selected then 1 else 0) + (if s.option1.selected then 1 else 0)
    + (if s.option2.selected then 1 else 0)

/-! ## The functions of the script -/

/-- Lines 118-126. -/
def updateUI (s : Page) (state : String) : Page :=
  if state = "recording" then
    { s with buttonRecording := true, buttonText := "停止识别" }
  else
    { s with buttonRecording := false, buttonText := "开始识别" }

/-- Lines 128-130. -/
def updateStatusText (s : Page) (text : String) : Page :=
  { s with statusText := text }

/-- Lines 132-134. -/
def displayTranscribedText (s : Page) (text : String) : Page :=
  { s with transcribedText := "识别内容：" ++ text }

/-- Lines 136-142. -/
def clearPreviousResults (s : Page) : Page :=
  Page.forEachOption { s with transcribedText := "", optionsDisplay := "none" }
    (fun item => { item with selected := false })

/-- Lines 244-246. -/
def showLoading (s : Page) : Page :=
  { s with loadingDisplay := "flex" }

/-- Lines 248-250. -/
def hideLoading (s : Page) : Page :=
  { s with loadingDisplay := "none" }

/-- The loop `options.forEach((option, index) => ...)` of `displayOptions`
(lines 209-214), started at position `index`: the page the loop leaves, and
the message of the `TypeError` that stopped it, if the assignment of line 211
raised one.  The slots written before the error keep what was written. -/
def displayLoop (h : Host) (s : Page) (index : Nat) : List JSVal → Page × Option String
  | [] => (s, none)
  | option :: rest =>
    match s.optionItem index with
    | some item =>
      match h.textContent option with
      | .error m => (s, some m)
      | .ok text =>
        displayLoop h
          (s.setOptionItem index { item with text := text, onclick := some index })
          (index + 1) rest
    | none => displayLoop h s (index + 1) rest

/-- Lines 208-217, called on an array: the page the call leaves, and the
message of the error it raised, if any.  The container is shown only when the
loop has run to its end. -/
def displayOptions (h : Host) (s : Page) (options : List JSVal) : Page × Option String :=
  match displayLoop h s 0 options with
  | (s1, none) => ({ s1 with optionsDisplay := "block" }, none)
  | (s1, some m) => (s1, some m)

/-- Lines 208-217, called on any value: a value without a `forEach` method
raises a `TypeError` before any node is touched. -/
def displayOptionsOf (h : Host) (s : Page) (options : JSVal) : Page × Option String :=
  match options with
  | .arr items => displayOptions h s items
  | .undefined => (s, some (h.nullReadMessage options "forEach"))
  | .null => (s, some (h.nullReadMessage options "forEach"))
  | _ => (s, some h.notFunctionMessage)

/-- The callback of the `setTimeout` of `selectOption` (lines 237-240). -/
def autoReset (s : Page) : Page :=
  updateStatusText (clearPreviousResults s) "等待识别语音..."

/-- Lines 219-242. -/
def selectOption (s : Page) (index : Nat) : Page :=
  let s1 := s.forEachOption (fun item => { item with selected := false })
  match s1.optionItem index with
  | some item =>
    let s2 := s1.setOptionItem index { item with selected := true }
    let selectedText := item.text
    let s3 := updateStatusText s2 ("已选择：" ++ selectedText)
    { s3 with timers := s3.timers ++ [{ due := s3.now + 3000 }] }
  | none => s1

/-- Lines 104-116. -/
def toggleRecording (s : Page) : Page :=
  if !s.recognition then
    { s with alerts := s.alerts ++ ["您的浏览器不支持语音识别功能"] }
  else if s.isRecording then
    { s with recognizerCalls := s.recognizerCalls ++ [RecCall.stop] }
  else
    let s1 := clearPreviousResults s
    { s1 with recognizerCalls := s1.recognizerCalls ++ [RecCall.start] }

/-- The fallback options of the `catch` block (lines 189-193). -/
def fallbackOptions : List JSVal :=
  [.str "好的，我理解了。", .str "没问题，我知道你的意思。", .str "明白了，我会注意的。"]

/-- Lines 144-170 of `generateResponses`: up to the `await fetch(...)`.  The
body posted is `JSON.stringify(payload)`. -/
def generateResponsesSend (s : Page) (message : String) (customParams : Obj) : Page :=
  let s1 := showLoading s
  let body := requestBody s1.apiConfig (.str message) customParams
  { s1 with requests := s1.requests ++ [body], inFlight := s1.inFlight + 1 }

/-- The condition `data.success && data.options && data.options.length === 3`
(line 179); reading a property of `null` or `undefined` raises. -/
def validResponse (h : Host) (data : JSVal) : Except String Bool :=
  match h.prop data "success" with
  | .error m => .error m
  | .ok success =>
    if truthy success then
      match h.prop data "options" with
      | .error m => .error m
      | .ok options =>
        if truthy options then
          match h.prop options "length" with
          | .error m => .error m
          | .ok len => .ok (strictEq3 len)
        else .ok false
    else .ok false

/-- The rest of the `try` block of `generateResponses` once the `fetch` has
settled (lines 164-184): the page the block leaves, and the message of the
error it raised, if any. -/
def generateResponsesTry (h : Host) (s : Page) (r : FetchOutcome) : Page × Option String :=
  match r with
  | .rejected m => (s, some m)
  | .response status body =>
    if !responseOk status then
      let errorData : JSVal :=
        match body with
        | .json d => d
        | .malformed _ => .obj []
      match h.prop errorData "error" with
      | .error m => (s, some m)
      | .ok e =>
        if truthy e then
          match h.toStr e with
          | .ok m => (s, some m)
          | .error m => (s, some m)
        else (s, some ("HTTP error! status: " ++ toString status))
    else
      match body with
      | .malformed m => (s, some m)
      | .json data =>
        match validResponse h data with
        | .error m => (s, some m)
        | .ok true =>
          match h.prop data "options" with
          | .error m => (s, some m)
          | .ok options =>
            match displayOptionsOf h s options with
            | (s1, some m) => (s1, some m)
            | (s1, none) => (updateStatusText s1 "请选择回复选项", none)
        | .ok false => (s, some "Invalid response format")

/-- Lines 172-196 of `generateResponses`: the `try` block after the `fetch`,
the `catch` block, which works on the page as the `try` block left it, and the
`finally` block. -/
def generateResponsesSettle (h : Host) (s : Page) (r : FetchOutcome) : Page :=
  hideLoading
    (match generateResponsesTry h s r with
     | (s1, none) => s1
     | (s1, some message) =>
       (displayOptions h (updateStatusText s1 ("生成回复失败: " ++ message))
          fallbackOptions).1)

/-- Lines 144-197: one call of `generateResponses` whose `fetch` settles with
`r`, no other handler running in between. -/
def generateResponses (h : Host) (s : Page) (message : String) (customParams : Obj)
    (r : FetchOutcome) : Page :=
  let s1 := generateResponsesSend s message customParams
  generateResponsesSettle h { s1 with inFlight := s1.inFlight - 1 } r

/-- Whether the call ends on its success path (lines 180-181) rather than in
the `catch` block. -/
def tookSuccessPath (h : Host) (s : Page) (r : FetchOutcome) : Bool :=
  match (generateResponsesTry h s r).2 with
  | none => true
  | some _ => false

/-- The message of the error caught by the `catch` block, if any. -/
def errorDetail (h : Host) (s : Page) (r : FetchOutcome) : Option String :=
  (generateResponsesTry h s r).2

/-- Lines 203-206. -/
def updateAPIConfig (s : Page) (config : Obj) : Page :=
  { s with apiConfig := s.apiConfig.spread config }

/-! ## Event handlers -/

/-- The handler `recognition.onstart` (lines 41-45). -/
def onstart (s : Page) : Page :=
  updateStatusText (updateUI { s with isRecording := true } "recording") "正在识别语音..."

/-- The handler `recognition.onresult` (lines 47-52), up to the `await` inside
`generateResponses`. -/
def onresult (s : Page) (transcript : String) : Page :=
  generateResponsesSend
    (updateStatusText (displayTranscribedText s transcript) "语音识别完成，正在生成回复...")
    transcript []

/-- The handler `recognition.onerror` (lines 54-66). -/
def onerror (s : Page) (error : String) : Page :=
  let s1 := updateUI { s with isRecording := false } "idle"
  if error = "no-speech" then updateStatusText s1 "未检测到语音，请重试"
  else if error = "not-allowed" then updateStatusText s1 "麦克风权限未授予"
  else updateStatusText s1 "识别出错，请重试"

/-- The handler `recognition.onend` (lines 68-71). -/
def onend (s : Page) : Page :=
  updateUI { s with isRecording := false } "idle"

/-- The expression `parseInt(e.key) - 1` for the keys the handler lets through. -/
def keyIndex (key : String) : Nat :=
  if key = "1" then 0 else if key = "2" then 1 else 2

/-- The `keydown` listener (lines 93-101).  The second component tells
whether `e.preventDefault()` was called. -/
def keydown (s : Page) (key : String) : Page × Bool :=
  if key = " " ∧ s.isRecording = false then
    (toggleRecording s, true)
  else if key = "1" ∨ key = "2" ∨ key = "3" then
    (selectOption s (keyIndex key), false)
  else
    (s, false)

/-- A click on option slot `slot`: runs the `onclick` handler installed by
`displayOptions`, if any. -/
def optionClick (s : Page) (slot : Nat) : Page :=
  match s.optionItem slot with
  | some item =>
    match item.onclick with
    | some index => selectOption s index
    | none => s
  | none => s

/-- The `k`-th pending timer fires: allowed only once its due time has come;
the task leaves the queue and its callback runs. -/
def fireTimer (s : Page) (k : Nat) : Option Page :=
  match s.timers.get? k with
  | some t =>
    if t.due ≤ s.now then some (autoReset { s with timers := s.timers.eraseIdx k })
    else none
  | none => none

/-- Time passes without any handler running. -/
def elapse (s : Page) (ms : Nat) : Page :=
  { s with now := s.now + ms }

/-- Everything that can happen to the page. -/
inductive Event where
  /-- A click on `recordButton` (line 90). -/
  | click
  /-- A `keydown` on the document with the given `key`. -/
  | keydown (key : String)
  /-- A click on an option slot. -/
  | optionClick (slot : Nat)
  /-- The recognizer's notifications. -/
  | onstart
  | onresult (transcript : String)
  | onerror (error : String)
  | onend
  /-- A pending `fetch` settles. -/
  | settle (r : FetchOutcome)
  /-- A call of `updateAPIConfig`. -/
  | updateAPIConfig (config : Obj)
  /-- Time passes. -/
  | elapse (ms : Nat)
  /-- The `k`-th pending timer fires. -/
  | timeout (k : Nat)

/-- One turn of the event loop.  The recognizer's handlers exist only when the
recognizer does (lines 33-72).  Without a recognizer the script stops at line
74, where `updateStatusText` reads `statusText` before line 79 has
initialised it, so the listeners of lines 90-101 are registered only when the
recognizer exists.  A `fetch` settles only if one is pending; a timer that is
not due does not fire. -/
def step (h : Host) (s : Page) : Event → Page
  | .click => if s.recognition then toggleRecording s else s
  | .keydown key => if s.recognition then (keydown s key).1 else s
  | .optionClick slot => optionClick s slot
  | .onstart => if s.recognition then onstart s else s
  | .onresult transcript => if s.recognition then onresult s transcript else s
  | .onerror error => if s.recognition then onerror s error else s
  | .onend => if s.recognition then onend s else s
  | .settle r =>
    if 0 < s.inFlight then
      generateResponsesSettle h { s with inFlight := s.inFlight - 1 } r
    else s
  | .updateAPIConfig config => updateAPIConfig s config
  | .elapse ms => elapse s ms
  | .timeout k => (fireTimer s k).getD s

/-- The page after a sequence of events. -/
def run (h : Host) (s : Page) (events : List Event) : Page :=
  events.foldl (step h) s

/-- The page right after the script has loaded in a browser with speech
recognition (lines 2-13, 35 and 253).  The DOM state that comes from the page
markup, which the script does not set at load time, is taken to be empty. -/
def initialPage : Page where
  recognition := true
  isRecording := false
  apiConfig := initialApiConfig
  buttonRecording := false
  buttonText := ""
  statusText := "等待识别语音..."
  transcribedText := ""
  optionsDisplay := ""
  loadingDisplay := ""
  option0 := { text := "", selected := false, onclick := none }
  option1 := { text := "", selected := false, onclick := none }
  option2 := { text := "", selected := false, onclick := none }
  recognizerCalls := []
  requests := []
  inFlight := 0
  alerts := []
  timers := []
  now := 0

/-- The failures the specification lists for a generation attempt: a
transport failure, a non-2xx status, a malformed body, a body whose `success`
is `false`, an `options` array with fewer or more than 3 entries. -/
def listedFailure : FetchOutcome → Bool
  | .rejected _ => true
  | .response status body =>
    !responseOk status ||
    match body with
    | .malformed _ => true
    | .json (.obj fields) =>
      (match Obj.read fields "success" with
       | .bool false => true
       | _ => false) ||
      (match Obj.read fields "options" with
       | .arr items => items.length != 3
       | _ => false)
    | .json _ => false

/-- A sample engine, for concrete runs.  Its number format is the one of
JavaScript for `NaN`, the infinities and the integers; no run below prints any
other number. -/
def sampleHost : Host where
  numberToString := fun n =>
    match n with
    | .nan => "NaN"
    | .posInf => "Infinity"
    | .negInf => "-Infinity"
    | .finite q => toString q.num
  nullReadMessage := fun _ k => "Cannot read properties of null (reading " ++ k ++ ")"
  notFunctionMessage := "options.forEach is not a function"
  notPrimitiveMessage := "Cannot convert object to primitive value"

/-- A call of one of the two functions that change the selection. -/
inductive SelectionCall where
  | selectOption (index : Nat)
  | clearPreviousResults

/-- The effect of one selection call. -/
def applyCall (s : Page) : SelectionCall → Page
  | .selectOption index => selectOption s index
  | .clearPreviousResults => clearPreviousResults s

/-- The effect of a sequence of selection calls. -/
def applyCalls (s : Page) (calls : List SelectionCall) : Page :=
  calls.foldl applyCall s

/-- The part of the page that is not display state: the recognizer handle,
the recording state, the API configuration and the calls made on the
recognizer. -/
def Page.control (s : Page) : Bool × Bool × Obj × List RecCall :=
  (s.recognition, s.isRecording, s.apiConfig, s.recognizerCalls)

/-! ## Lemmas on objects -/

theorem Obj.get_set (o : Obj) (k : String) (v : JSVal) (k' : String) :
    (o.set k v).get k' = if k = k' then some v else o.get k' := by
  induction o with
  | nil => simp [Obj.set, Obj.get]
  | cons hd tl ih =>
    obtain ⟨a, b⟩ := hd
    by_cases h1 : a = k
    · subst h1
      by_cases h2 : a = k' <;> simp [Obj.set, Obj.get, h2]
    · by_cases h2 : a = k'
      · subst h2
        simp [Obj.set, Obj.get, h1, Ne.symm h1]
      · simp [Obj.set, Obj.get, h1, h2, ih]

theorem Obj.keys_set (o : Obj) (k : String) (v : JSVal) :
    (o.set k v).keys = if k ∈ o.keys then o.keys else o.keys ++ [k] := by
  induction o with
  | nil => simp [Obj.set, Obj.keys]
  | cons hd tl ih =>
    obtain ⟨a, b⟩ := hd
    by_cases h1 : a = k
    · subst h1
      simp [Obj.set, Obj.keys]
    · have ih' : List.map Prod.fst (Obj.set tl k v)
          = if k ∈ List.map Prod.fst tl then List.map Prod.fst tl
            else List.map Prod.fst tl ++ [k] := ih
      by_cases h2 : k ∈ List.map Prod.fst tl
      · simp [Obj.set, Obj.keys, h1, Ne.symm h1, ih', h2]
      · simp [Obj.set, Obj.keys, h1, Ne.symm h1, ih', h2]

theorem Obj.WF_set (o : Obj) (k : String) (v : JSVal) (h : o.WF) :
    (o.set k v).WF := by
  unfold Obj.WF at *
  rw [Obj.keys_set]
  split
  · exact h
  · rename_i hk
    rw [List.nodup_append]
    refine ⟨h, List.nodup_singleton k, ?_⟩
    intro a ha hb
    simp at hb
    subst hb
    exact hk ha

theorem Obj.get_eq_none_iff (o : Obj) (k : String) :
    o.get k = none ↔ k ∉ o.keys := by
  induction o with
  | nil => simp [Obj.get, Obj.keys]
  | cons hd tl ih =>
    obtain ⟨a, b⟩ := hd
    by_cases h : a = k
    · subst h
      simp [Obj.get, Obj.keys]
    · have ih' : Obj.get tl k = none ↔ k ∉ List.map Prod.fst tl := ih
      simp [Obj.get, Obj.keys, h, Ne.symm h, ih']

theorem Obj.WF_spread (t s : Obj) (h : t.WF) : (t.spread s).WF := by
  unfold Obj.spread
  induction s generalizing t with
  | nil => simpa using h
  | cons hd tl ih =>
    simp only [List.foldl_cons]
    exact ih _ (Obj.WF_set t hd.1 hd.2 h)

/-- Reading a key of a spread: the source decides when it has the key. -/
theorem Obj.get_spread (t s : Obj) (hs : s.WF) (k : String) :
    (t.spread s).get k = match s.get k with
      | some v => some v
      | none => t.get k := by
  unfold Obj.spread
  induction s generalizing t with
  | nil => simp [Obj.get]
  | cons hd tl ih =>
    obtain ⟨a, b⟩ := hd
    have htl : Obj.WF tl := by
      unfold Obj.WF Obj.keys at *
      simp at hs
      exact hs.2
    have ha : Obj.get tl a = none := by
      rw [Obj.get_eq_none_iff]
      unfold Obj.WF Obj.keys at *
      simp at hs
      simpa [Obj.keys] using hs.1
    simp only [List.foldl_cons]
    rw [ih _ htl]
    by_cases h : a = k
    · subst h
      simp [Obj.get, ha, Obj.get_set]
    · simp [Obj.get, h, Obj.get_set]

/-- A spread leaves alone every key its source does not have. -/
theorem Obj.get_spread_of_not_mem (t s : Obj) (k : String) (hk : s.get k = none) :
    (t.spread s).get k = t.get k := by
  unfold Obj.spread
  induction s generalizing t with
  | nil => simp
  | cons hd tl ih =>
    obtain ⟨a, b⟩ := hd
    by_cases h : a = k
    · simp [Obj.get, h] at hk
    · simp only [Obj.get, h, if_false] at hk
      simp only [List.foldl_cons]
      rw [ih _ hk, Obj.get_set]
      simp [h]

/-- Every configuration reached from the initial one through
`updateAPIConfig` is a well-formed object. -/
theorem applyPatches_WF (cfg : Obj) (patches : List Obj) (h : cfg.WF) :
    (applyPatches cfg patches).WF := by
  unfold applyPatches
  induction patches generalizing cfg with
  | nil => exact h
  | cons p rest ih =>
    simp only [List.foldl_cons]
    exact ih _ (Obj.WF_spread cfg p h)

theorem Obj.get_delete (o : Obj) (k k' : String) :
    (o.delete k).get k' = if k = k' then none else o.get k' := by
  induction o with
  | nil => simp [Obj.delete, Obj.get]
  | cons hd tl ih =>
    obtain ⟨a, b⟩ := hd
    by_cases h1 : a = k
    · subst h1
      by_cases h2 : a = k'
      · subst h2
        simpa [Obj.delete, Obj.get] using ih
      · simp [Obj.delete, Obj.get, h2, ih]
    · by_cases h2 : a = k'
      · subst h2
        simp [Obj.delete, Obj.get, h1, Ne.symm h1]
      · simp [Obj.delete, Obj.get, h1, h2, ih]

/-- The deletion loop over a list of keys: a listed key whose value is
nullish disappears, every other key keeps its value. -/
theorem stripLoop_get (ks : List String) (p : Obj) (k : String) :
    (ks.foldl (fun p key => if isNullish (p.read key) then p.delete key else p) p).get k
      = if k ∈ ks ∧ isNullish (p.read k) = true then none else p.get k := by
  induction ks generalizing p with
  | nil => simp
  | cons k1 rest ih =>
    simp only [List.foldl_cons]
    rw [ih]
    by_cases hn : isNullish (p.read k1) = true
    · simp only [hn, if_true]
      by_cases hk : k1 = k
      · subst hk
        have hn' := hn
        simp only [Obj.read] at hn'
        simp [Obj.read, Obj.get_delete, hn']
      · have hk' : ¬ k = k1 := fun h => hk h.symm
        simp [Obj.read, Obj.get_delete, hk, hk']
    · simp only [hn]
      by_cases hk : k1 = k
      · subst hk
        simp [hn]
      · have hk' : ¬ k = k1 := fun h => hk h.symm
        simp [hk']

theorem stripNullish_get (p : Obj) (k : String) :
    (stripNullish p).get k = match p.get k with
      | some v => if isNullish v then none else some v
      | none => none := by
  unfold stripNullish
  rw [stripLoop_get]
  cases hg : p.get k with
  | none => simp [Obj.read, hg]
  | some v =>
    have hmem : k ∈ p.keys := by
      by_contra hc
      rw [← Obj.get_eq_none_iff] at hc
      simp [hc] at hg
    simp [Obj.read, hg, hmem]

theorem mergedPayload_get (cfg : Obj) (msg : JSVal) (cp : Obj)
    (hcfg : cfg.WF) (hcp : cp.WF) (k : String) :
    (mergedPayload cfg msg cp).get k = mergedValue cfg msg cp k := by
  unfold mergedPayload mergedValue
  rw [Obj.get_spread _ _ hcp, Obj.get_spread _ _ hcfg]
  cases cp.get k <;> cases cfg.get k <;> simp [Obj.get, eq_comm]

theorem buildPayload_get (cfg : Obj) (msg : JSVal) (cp : Obj)
    (hcfg : cfg.WF) (hcp : cp.WF) (k : String) :
    (buildPayload cfg msg cp).get k = match mergedValue cfg msg cp k with
      | some v => if isNullish v then none else some v
      | none => none := by
  unfold buildPayload
  rw [stripNullish_get, mergedPayload_get cfg msg cp hcfg hcp]

theorem jsonOfFields_get (fields : Obj) (k : String) (v w : JSVal)
    (hv : fields.get k = some v) (hw : jsonOf v = some w) :
    Obj.get (jsonOfFields fields) k = some w := by
  induction fields with
  | nil => simp [Obj.get] at hv
  | cons hd tl ih =>
    obtain ⟨a, b⟩ := hd
    by_cases hk : a = k
    · subst hk
      simp only [Obj.get, if_true, Option.some.injEq] at hv
      subst hv
      simp [jsonOfFields, hw, Obj.get]
    · simp only [Obj.get, hk, if_false] at hv
      cases hb : jsonOf b with
      | none => simpa [jsonOfFields, hb] using ih hv
      | some b' => simpa [jsonOfFields, hb, Obj.get, hk] using ih hv

theorem jsonOfFields_get_none (fields : Obj) (k : String) (hk : fields.get k = none) :
    Obj.get (jsonOfFields fields) k = none := by
  induction fields with
  | nil => rfl
  | cons hd tl ih =>
    obtain ⟨a, b⟩ := hd
    by_cases hak : a = k
    · simp [Obj.get, hak] at hk
    · simp only [Obj.get, hak, if_false] at hk
      cases hb : jsonOf b with
      | none => simpa [jsonOfFields, hb] using ih hk
      | some b' => simpa [jsonOfFields, hb, Obj.get, hak] using ih hk

/-- Reading a key of the written object: the value written for the key, if
the object has the key and its value writes something. -/
theorem jsonOfFields_get_eq (fields : Obj) (hwf : fields.WF) (k : String) :
    Obj.get (jsonOfFields fields) k = (fields.get k).bind jsonOf := by
  cases hg : fields.get k with
  | none => simpa using jsonOfFields_get_none fields k hg
  | some v =>
    cases hv : jsonOf v with
    | some w => simpa [hv] using jsonOfFields_get fields k v w hg hv
    | none =>
      rw [Option.some_bind, hv]
      induction fields with
      | nil => simp [Obj.get] at hg
      | cons hd tl ih =>
        obtain ⟨a, b⟩ := hd
        have htl : Obj.WF tl := by
          unfold Obj.WF Obj.keys at *
          simp at hwf
          exact hwf.2
        by_cases hak : a = k
        · subst hak
          simp only [Obj.get, if_true, Option.some.injEq] at hg
          subst hg
          have hnot : Obj.get tl a = none := by
            rw [Obj.get_eq_none_iff]
            unfold Obj.WF Obj.keys at hwf
            simp at hwf
            simpa [Obj.keys] using hwf.1
          simpa [jsonOfFields, hv] using jsonOfFields_get_none tl a hnot
        · simp only [Obj.get, hak, if_false] at hg
          cases hb : jsonOf b with
          | none => simpa [jsonOfFields, hb] using ih htl hg
          | some b' => simpa [jsonOfFields, hb, Obj.get, hak] using ih htl hg

theorem Obj.keys_delete_sublist (o : Obj) (k : String) :
    List.Sublist (o.delete k).keys o.keys := by
  induction o with
  | nil => exact List.Sublist.slnil
  | cons hd tl ih =>
    obtain ⟨a, b⟩ := hd
    by_cases hak : a = k
    · simpa [Obj.delete, Obj.keys, hak] using List.Sublist.cons a ih
    · simpa [Obj.delete, Obj.keys, hak] using ih

theorem Obj.WF_delete (o : Obj) (k : String) (h : o.WF) : (o.delete k).WF :=
  List.Nodup.sublist (Obj.keys_delete_sublist o k) h

theorem stripLoop_WF (ks : List String) (p : Obj) (hp : p.WF) :
    (ks.foldl (fun p key => if isNullish (p.read key) then p.delete key else p) p).WF := by
  induction ks generalizing p with
  | nil => exact hp
  | cons k1 rest ih =>
    simp only [List.foldl_cons]
    apply ih
    split
    · exact Obj.WF_delete p k1 hp
    · exact hp

theorem buildPayload_WF (cfg : Obj) (msg : JSVal) (cp : Obj) :
    (buildPayload cfg msg cp).WF := by
  unfold buildPayload stripNullish
  apply stripLoop_WF
  unfold mergedPayload
  apply Obj.WF_spread
  apply Obj.WF_spread
  simp [Obj.WF, Obj.keys]

/-- The body posted, key by key: the value of the merge
`{message} < apiConfig < customParams`, dropped when it is `null` or
`undefined`, and otherwise as `JSON.stringify` writes it. -/
theorem requestBody_get (cfg : Obj) (msg : JSVal) (cp : Obj)
    (hcfg : cfg.WF) (hcp : cp.WF) (k : String) :
    (requestBody cfg msg cp).get k = match mergedValue cfg msg cp k with
      | some v => if isNullish v then none else jsonOf v
      | none => none := by
  unfold requestBody
  rw [jsonOfFields_get_eq _ (buildPayload_WF cfg msg cp) k,
    buildPayload_get cfg msg cp hcfg hcp k]
  cases mergedValue cfg msg cp k with
  | none => rfl
  | some v => cases hn : isNullish v <;> simp [hn]

theorem generateResponsesSend_requests (s : Page) (message : String) (cp : Obj) :
    (generateResponsesSend s message cp).requests
      = s.requests ++ [requestBody s.apiConfig (.str message) cp] := rfl

theorem applyPatches_get_of_not_mem (cfg : Obj) (patches : List Obj) (k : String)
    (hp : ∀ p ∈ patches, p.get k = none) :
    (applyPatches cfg patches).get k = cfg.get k := by
  unfold applyPatches
  induction patches generalizing cfg with
  | nil => rfl
  | cons p rest ih =>
    simp only [List.foldl_cons]
    rw [ih _ (fun q hq => hp q (List.mem_cons_of_mem _ hq))]
    exact Obj.get_spread_of_not_mem cfg p k (hp p (List.mem_cons_self _ _))

/-! ## Lemmas on the response of the generation endpoint -/

theorem strictEq3_length (items : List JSVal) :
    strictEq3 (.num (.finite items.length)) = decide (items.length = 3) := by
  simp only [strictEq3]
  congr 1
  apply propext
  constructor
  · intro h
    exact_mod_cast h
  · intro h
    rw [h]
    norm_num

/-- Three options that all have a text are written to the three slots. -/
theorem displayOptions_three_ok (h : Host) (s : Page) (a b c : JSVal) (ta tb tc : String)
    (ha : h.textContent a = .ok ta) (hb : h.textContent b = .ok tb)
    (hc : h.textContent c = .ok tc) :
    displayOptions h s [a, b, c]
      = ({ s with
           option0 := { text := ta, selected := s.option0.selected, onclick := some 0 },
           option1 := { text := tb, selected := s.option1.selected, onclick := some 1 },
           option2 := { text := tc, selected := s.option2.selected, onclick := some 2 },
           optionsDisplay := "block" }, none) := by
  simp [displayOptions, displayLoop, Page.optionItem, Page.setOptionItem, ha, hb, hc]

/-- Three options are displayed without error exactly when each has a text. -/
theorem displayOptions_three_none_iff (h : Host) (s : Page) (a b c : JSVal) :
    (displayOptions h s [a, b, c]).2 = none ↔
      (∃ ta, h.textContent a = .ok ta) ∧ (∃ tb, h.textContent b = .ok tb) ∧
      (∃ tc, h.textContent c = .ok tc) := by
  cases ha : h.textContent a with
  | error m => simp [displayOptions, displayLoop, Page.optionItem, ha]
  | ok ta =>
    cases hb : h.textContent b with
    | error m =>
      simp [displayOptions, displayLoop, Page.optionItem, Page.setOptionItem, ha, hb]
    | ok tb =>
      cases hc : h.textContent c with
      | error m =>
        simp [displayOptions, displayLoop, Page.optionItem, Page.setOptionItem, ha, hb, hc]
      | ok tc =>
        simp [displayOptions, displayLoop, Page.optionItem, Page.setOptionItem, ha, hb, hc]

theorem length_eq_three (items : List JSVal) (hl : items.length = 3) :
    ∃ a b c, items = [a, b, c] := by
  match items, hl with
  | [a, b, c], _ => exact ⟨a, b, c, rfl⟩

theorem generateResponsesTry_not_ok (h : Host) (s : Page) (status : Nat) (body : Body)
    (hok : responseOk status = false) :
    ∃ m, generateResponsesTry h s (.response status body) = (s, some m) := by
  simp only [generateResponsesTry, hok, Bool.not_false, if_true]
  split
  · exact ⟨_, rfl⟩
  · split
    · split
      · exact ⟨_, rfl⟩
      · exact ⟨_, rfl⟩
    · exact ⟨_, rfl⟩

theorem generateResponsesTry_obj (h : Host) (s : Page) (status : Nat) (fields : Obj)
    (hok : responseOk status = true) (hs : truthy (Obj.read fields "success") = true) :
    generateResponsesTry h s (.response status (.json (.obj fields)))
      = match Obj.read fields "options" with
        | .arr items =>
          if items.length = 3 then
            match displayOptions h s items with
            | (s1, some m) => (s1, some m)
            | (s1, none) => (updateStatusText s1 "请选择回复选项", none)
          else (s, some "Invalid response format")
        | .str x =>
          if utf16Length x = 3 then (s, some h.notFunctionMessage)
          else (s, some "Invalid response format")
        | .obj fs =>
          if strictEq3 (Obj.read fs "length") then (s, some h.notFunctionMessage)
          else (s, some "Invalid response format")
        | _ => (s, some "Invalid response format") := by
  simp only [generateResponsesTry, hok, validResponse, Host.prop, Bool.not_true]
  simp only [hs, if_true]
  cases ho : Obj.read fields "options" with
  | arr items =>
    simp only [truthy, Host.prop, strictEq3_length, if_true]
    by_cases hl : items.length = 3 <;> simp [hl, displayOptionsOf]
  | undefined => simp [truthy]
  | null => simp [truthy]
  | bool b => cases b <;> simp [truthy, Host.prop, strictEq3]
  | num n =>
    cases n with
    | nan => simp [truthy]
    | posInf => simp [truthy, Host.prop, strictEq3]
    | negInf => simp [truthy, Host.prop, strictEq3]
    | finite q => by_cases hq : q = 0 <;> simp [truthy, Host.prop, strictEq3, hq]
  | str x =>
    by_cases hx : x = ""
    · subst hx
      simp [truthy, utf16Length]
    · simp only [truthy, Host.prop, hx, ne_eq, not_false_eq_true, decide_True, if_true]
      by_cases hl : utf16Length x = 3
      · simp [strictEq3, hl, displayOptionsOf]
      · have : ¬ ((utf16Length x : ℚ) = 3) := by exact_mod_cast hl
        simp [strictEq3, hl, this]
  | obj fs =>
    simp only [truthy, Host.prop, if_true]
    cases hl : strictEq3 (Obj.read fs "length") <;> simp [displayOptionsOf]

theorem generateResponsesTry_falsy (h : Host) (s : Page) (status : Nat) (fields : Obj)
    (hok : responseOk status = true) (hs : truthy (Obj.read fields "success") = false) :
    generateResponsesTry h s (.response status (.json (.obj fields)))
      = (s, some "Invalid response format") := by
  simp only [generateResponsesTry, hok, validResponse, Host.prop, Bool.not_true]
  simp [hs]

theorem generateResponsesTry_not_obj (h : Host) (s : Page) (status : Nat) (data : JSVal)
    (hd : ∀ fields, data ≠ .obj fields) :
    ∃ m, generateResponsesTry h s (.response status (.json data)) = (s, some m) := by
  cases hok : responseOk status with
  | false => exact generateResponsesTry_not_ok h s status _ hok
  | true =>
    cases data with
    | obj fields => exact absurd rfl (hd fields)
    | undefined => exact ⟨_, by simp [generateResponsesTry, hok, validResponse, Host.prop]; rfl⟩
    | null => exact ⟨_, by simp [generateResponsesTry, hok, validResponse, Host.prop]; rfl⟩
    | bool b =>
      exact ⟨_, by simp [generateResponsesTry, hok, validResponse, Host.prop, truthy]; rfl⟩
    | num n =>
      exact ⟨_, by simp [generateResponsesTry, hok, validResponse, Host.prop, truthy]; rfl⟩
    | str x =>
      exact ⟨_, by simp [generateResponsesTry, hok, validResponse, Host.prop, truthy]; rfl⟩
    | arr xs =>
      exact ⟨_, by simp [generateResponsesTry, hok, validResponse, Host.prop, truthy]; rfl⟩

/-- The `try` block ends without error exactly on a 2xx response whose body
is an object with a truthy `success` and an `options` array of 3 elements that
`displayOptions` can write. -/
theorem generateResponsesTry_none_iff (h : Host) (s : Page) (r : FetchOutcome) :
    (generateResponsesTry h s r).2 = none ↔
      ∃ status fields items,
        r = .response status (.json (.obj fields)) ∧ responseOk status = true ∧
        truthy (Obj.read fields "success") = true ∧
        Obj.read fields "options" = .arr items ∧ items.length = 3 ∧
        (displayOptions h s items).2 = none := by
  constructor
  · intro ht
    cases r with
    | rejected m => simp [generateResponsesTry] at ht
    | response status body =>
      cases hok : responseOk status with
      | false =>
        obtain ⟨m, hm⟩ := generateResponsesTry_not_ok h s status body hok
        rw [hm] at ht
        cases ht
      | true =>
        cases body with
        | malformed m => simp [generateResponsesTry, hok] at ht
        | json data =>
          by_cases hd : ∃ fields, data = .obj fields
          · obtain ⟨fields, rfl⟩ := hd
            cases hs : truthy (Obj.read fields "success") with
            | false =>
              rw [generateResponsesTry_falsy h s status fields hok hs] at ht
              cases ht
            | true =>
              rw [generateResponsesTry_obj h s status fields hok hs] at ht
              cases ho : Obj.read fields "options" with
              | arr items =>
                rw [ho] at ht
                by_cases hl : items.length = 3
                · simp only [hl, if_true] at ht
                  refine ⟨status, fields, items, rfl, hok, hs, ho, hl, ?_⟩
                  cases hdisp : displayOptions h s items with
                  | mk s1 thrown =>
                    cases thrown with
                    | none => rfl
                    | some m => simp [hdisp] at ht
                · simp [hl] at ht
              | str x =>
                rw [ho] at ht
                simp only at ht
                split at ht <;> cases ht
              | obj fs =>
                rw [ho] at ht
                simp only at ht
                split at ht <;> cases ht
              | undefined => rw [ho] at ht; cases ht
              | null => rw [ho] at ht; cases ht
              | bool b => rw [ho] at ht; cases ht
              | num n => rw [ho] at ht; cases ht
          · obtain ⟨m, hm⟩ := generateResponsesTry_not_obj h s status data
              (fun fields hf => hd ⟨fields, hf⟩)
            rw [hm] at ht
            cases ht
  · rintro ⟨status, fields, items, rfl, hok, hs, ho, hl, hdisp⟩
    rw [generateResponsesTry_obj h s status fields hok hs, ho]
    simp only [hl, if_true]
    cases hd : displayOptions h s items with
    | mk s1 thrown =>
      rw [hd] at hdisp
      simp only at hdisp
      subst hdisp
      rfl

/-- The page a well-shaped response leaves behind the `try` block. -/
theorem generateResponsesTry_of_valid (h : Host) (s : Page) (status : Nat) (fields : Obj)
    (items : List JSVal) (hok : responseOk status = true)
    (hs : truthy (Obj.read fields "success") = true)
    (ho : Obj.read fields "options" = .arr items) (hl : items.length = 3)
    (hdisp : (displayOptions h s items).2 = none) :
    generateResponsesTry h s (.response status (.json (.obj fields)))
      = (updateStatusText (displayOptions h s items).1 "请选择回复选项", none) := by
  rw [generateResponsesTry_obj h s status fields hok hs, ho]
  simp only [hl, if_true]
  cases hd : displayOptions h s items with
  | mk s1 thrown =>
    rw [hd] at hdisp
    simp only at hdisp
    subst hdisp
    rfl

theorem generateResponsesSettle_of_error (h : Host) (s : Page) (r : FetchOutcome)
    (s1 : Page) (m : String) (hm : generateResponsesTry h s r = (s1, some m)) :
    generateResponsesSettle h s r
      = hideLoading (displayOptions h
          (updateStatusText s1 ("生成回复失败: " ++ m)) fallbackOptions).1 := by
  simp only [generateResponsesSettle, hm]

theorem generateResponsesSettle_of_ok (h : Host) (s : Page) (r : FetchOutcome)
    (s1 : Page) (hm : generateResponsesTry h s r = (s1, none)) :
    generateResponsesSettle h s r = hideLoading s1 := by
  simp only [generateResponsesSettle, hm]

/-- The fallback options are strings: displaying them never raises. -/
theorem displayOptions_fallback (h : Host) (s : Page) :
    displayOptions h s fallbackOptions
      = ({ s with
           option0 := { text := "好的，我理解了。", selected := s.option0.selected,
                        onclick := some 0 },
           option1 := { text := "没问题，我知道你的意思。", selected := s.option1.selected,
                        onclick := some 1 },
           option2 := { text := "明白了，我会注意的。", selected := s.option2.selected,
                        onclick := some 2 },
           optionsDisplay := "block" }, none) :=
  displayOptions_three_ok h s _ _ _ _ _ _ rfl rfl rfl

theorem listedFailure_fails (h : Host) (s : Page) (r : FetchOutcome)
    (hr : listedFailure r = true) : tookSuccessPath h s r = false := by
  unfold tookSuccessPath
  cases ht : (generateResponsesTry h s r).2 with
  | some m => rfl
  | none =>
    obtain ⟨status, fields, items, rfl, hok, hs, ho, hl, -⟩ :=
      (generateResponsesTry_none_iff h s r).mp ht
    have hsf : (match Obj.read fields "success" with
        | .bool false => true
        | _ => false) = false := by
      cases hv : Obj.read fields "success" with
      | bool b =>
        cases b with
        | false => simp [hv, truthy] at hs
        | true => rfl
      | _ => rfl
    simp [listedFailure, hok, ho, hl, hsf] at hr

/-! ## Lemmas on selection and on the frame of the handlers -/

theorem selectOption_selectedCount (s : Page) (i : Nat) :
    (selectOption s i).selectedCount ≤ 1 := by
  by_cases hi : i < 3
  · interval_cases i <;>
      simp [selectOption, Page.selectedCount, Page.forEachOption, Page.optionItem,
        Page.setOptionItem, updateStatusText]
  · have : ∃ n, i = n + 3 := ⟨i - 3, by omega⟩
    obtain ⟨n, rfl⟩ := this
    simp [selectOption, Page.selectedCount, Page.forEachOption, Page.optionItem]

theorem clearPreviousResults_selectedCount (s : Page) :
    (clearPreviousResults s).selectedCount = 0 := rfl

theorem applyCalls_selectedCount (calls : List SelectionCall) (s : Page)
    (hs : s.selectedCount ≤ 1) : (applyCalls s calls).selectedCount ≤ 1 := by
  induction calls generalizing s with
  | nil => exact hs
  | cons c rest ih =>
    unfold applyCalls
    simp only [List.foldl_cons]
    apply ih
    cases c with
    | selectOption index => exact selectOption_selectedCount s index
    | clearPreviousResults =>
      show (clearPreviousResults s).selectedCount ≤ 1
      rw [clearPreviousResults_selectedCount]
      exact Nat.zero_le 1

theorem timers_get_last (ts : List Timer) (t : Timer) :
    (ts ++ [t]).get? ts.length = some t := by
  simp

theorem timers_erase_last (ts : List Timer) (t : Timer) :
    (ts ++ [t]).eraseIdx ts.length = ts := by
  induction ts with
  | nil => rfl
  | cons a rest ih => simp [List.eraseIdx, ih]

theorem selectOption_timers (s : Page) (i : Nat) (hi : i < 3) :
    (selectOption s i).timers = s.timers ++ [{ due := s.now + 3000 }] ∧
    (selectOption s i).now = s.now := by
  interval_cases i <;> exact ⟨rfl, rfl⟩

theorem setOptionItem_control (s : Page) (i : Nat) (x : Slot) :
    (s.setOptionItem i x).control = s.control := by
  unfold Page.setOptionItem
  split <;> rfl

theorem displayLoop_control (h : Host) (options : List JSVal) (s : Page) (i : Nat) :
    (displayLoop h s i options).1.control = s.control := by
  induction options generalizing s i with
  | nil => rfl
  | cons o rest ih =>
    unfold displayLoop
    split
    · split
      · rfl
      · rw [ih, setOptionItem_control]
    · rw [ih]

theorem displayOptions_control (h : Host) (s : Page) (options : List JSVal) :
    (displayOptions h s options).1.control = s.control := by
  have hl := displayLoop_control h options s 0
  unfold displayOptions
  split
  · rename_i s1 heq
    rw [heq] at hl
    exact hl
  · rename_i s1 m heq
    rw [heq] at hl
    exact hl

theorem displayOptionsOf_control (h : Host) (s : Page) (options : JSVal) :
    (displayOptionsOf h s options).1.control = s.control := by
  unfold displayOptionsOf
  split
  · exact displayOptions_control h s _
  · rfl
  · rfl
  · rfl

theorem generateResponsesTry_control (h : Host) (s : Page) (r : FetchOutcome) :
    (generateResponsesTry h s r).1.control = s.control := by
  cases r with
  | rejected m => rfl
  | response status body =>
    cases hok : responseOk status with
    | false =>
      obtain ⟨m, hm⟩ := generateResponsesTry_not_ok h s status body hok
      rw [hm]
    | true =>
      cases body with
      | malformed m => simp [generateResponsesTry, hok]
      | json data =>
        by_cases hd : ∃ fields, data = .obj fields
        · obtain ⟨fields, rfl⟩ := hd
          cases hs : truthy (Obj.read fields "success") with
          | false => rw [generateResponsesTry_falsy h s status fields hok hs]
          | true =>
            rw [generateResponsesTry_obj h s status fields hok hs]
            split
            · rename_i items _
              split
              · have hc := displayOptions_control h s items
                split
                · rename_i s1 m heq
                  rw [heq] at hc
                  exact hc
                · rename_i s1 heq
                  rw [heq] at hc
                  exact hc
              · rfl
            · split <;> rfl
            · split <;> rfl
            · rfl
        · obtain ⟨m, hm⟩ := generateResponsesTry_not_obj h s status data
            (fun fields hf => hd ⟨fields, hf⟩)
          rw [hm]

theorem selectOption_control (s : Page) (i : Nat) :
    (selectOption s i).control = s.control := by
  unfold selectOption
  dsimp only
  split
  · exact setOptionItem_control _ _ _
  · rfl

theorem generateResponsesSettle_control (h : Host) (s : Page) (r : FetchOutcome) :
    (generateResponsesSettle h s r).control = s.control := by
  have hc := generateResponsesTry_control h s r
  cases ht : generateResponsesTry h s r with
  | mk s1 thrown =>
    rw [ht] at hc
    cases thrown with
    | none =>
      rw [generateResponsesSettle_of_ok h s r s1 ht]
      exact hc
    | some m =>
      rw [generateResponsesSettle_of_error h s r s1 m ht]
      exact (displayOptions_control h _ _).trans hc

theorem fireTimer_control (s : Page) (k : Nat) (s1 : Page) (hf : fireTimer s k = some s1) :
    s1.control = s.control := by
  unfold fireTimer at hf
  split at hf
  · split at hf
    · injection hf with hf
      subst hf
      rfl
    · cases hf
  · cases hf

theorem toggleRecording_isRecording (s : Page) :
    (toggleRecording s).isRecording = s.isRecording := by
  unfold toggleRecording
  split
  · rfl
  · split <;> rfl

theorem toggleRecording_recognition (s : Page) :
    (toggleRecording s).recognition = s.recognition := by
  unfold toggleRecording
  split
  · rfl
  · split <;> rfl

/-- What one event does to the handle and to the recording state. -/
theorem step_recording (h : Host) (s : Page) (e : Event) :
    (step h s e).recognition = s.recognition ∧
    ((step h s e).isRecording = s.isRecording ∨
      (s.recognition = true ∧
        ((e = .onstart ∧ (step h s e).isRecording = true) ∨
         ((e = .onend ∨ ∃ c, e = .onerror c) ∧ (step h s e).isRecording = false)))) := by
  cases e with
  | click =>
    simp only [step]
    split
    · exact ⟨toggleRecording_recognition s, Or.inl (toggleRecording_isRecording s)⟩
    · exact ⟨rfl, Or.inl rfl⟩
  | keydown key =>
    simp only [step, keydown]
    split
    · split
      · exact ⟨toggleRecording_recognition s, Or.inl (toggleRecording_isRecording s)⟩
      · split
        · have hc := selectOption_control s (keyIndex key)
          simp only [Page.control, Prod.mk.injEq] at hc
          exact ⟨hc.1, Or.inl hc.2.1⟩
        · exact ⟨rfl, Or.inl rfl⟩
    · exact ⟨rfl, Or.inl rfl⟩
  | optionClick slot =>
    simp only [step, optionClick]
    split
    · split
      · rename_i index _
        have hc := selectOption_control s index
        simp only [Page.control, Prod.mk.injEq] at hc
        exact ⟨hc.1, Or.inl hc.2.1⟩
      · exact ⟨rfl, Or.inl rfl⟩
    · exact ⟨rfl, Or.inl rfl⟩
  | onstart =>
    by_cases hr : s.recognition = true
    · have hst : step h s .onstart = onstart s := by simp [step, hr]
      rw [hst]
      exact ⟨rfl, Or.inr ⟨hr, Or.inl ⟨rfl, rfl⟩⟩⟩
    · have hst : step h s .onstart = s := by simp [step, hr]
      rw [hst]
      exact ⟨rfl, Or.inl rfl⟩
  | onresult t =>
    by_cases hr : s.recognition = true
    · have hst : step h s (.onresult t) = onresult s t := by simp [step, hr]
      rw [hst]
      exact ⟨rfl, Or.inl rfl⟩
    · have hst : step h s (.onresult t) = s := by simp [step, hr]
      rw [hst]
      exact ⟨rfl, Or.inl rfl⟩
  | onerror c =>
    by_cases hr : s.recognition = true
    · have hst : step h s (.onerror c) = onerror s c := by simp [step, hr]
      rw [hst]
      have hfr : (onerror s c).recognition = s.recognition ∧
          (onerror s c).isRecording = false := by
        unfold onerror
        dsimp only
        split
        · exact ⟨rfl, rfl⟩
        · split <;> exact ⟨rfl, rfl⟩
      exact ⟨hfr.1, Or.inr ⟨hr, Or.inr ⟨Or.inr ⟨c, rfl⟩, hfr.2⟩⟩⟩
    · have hst : step h s (.onerror c) = s := by simp [step, hr]
      rw [hst]
      exact ⟨rfl, Or.inl rfl⟩
  | onend =>
    by_cases hr : s.recognition = true
    · have hst : step h s .onend = onend s := by simp [step, hr]
      rw [hst]
      exact ⟨rfl, Or.inr ⟨hr, Or.inr ⟨Or.inl rfl, rfl⟩⟩⟩
    · have hst : step h s .onend = s := by simp [step, hr]
      rw [hst]
      exact ⟨rfl, Or.inl rfl⟩
  | settle r =>
    simp only [step]
    split
    · have hc := generateResponsesSettle_control h { s with inFlight := s.inFlight - 1 } r
      simp only [Page.control, Prod.mk.injEq] at hc
      exact ⟨hc.1, Or.inl hc.2.1⟩
    · exact ⟨rfl, Or.inl rfl⟩
  | updateAPIConfig config => exact ⟨rfl, Or.inl rfl⟩
  | elapse ms => exact ⟨rfl, Or.inl rfl⟩
  | timeout k =>
    simp only [step]
    cases hf : fireTimer s k with
    | none => exact ⟨rfl, Or.inl rfl⟩
    | some s1 =>
      have hc := fireTimer_control s k s1 hf
      simp only [Page.control, Prod.mk.injEq] at hc
      exact ⟨hc.1, Or.inl hc.2.1⟩

/-- Along a run from Idle, the page records only if it has a recognizer. -/
theorem run_recording_inv (h : Host) (events : List Event) (s : Page)
    (hs : s.isRecording = true → s.recognition = true) :
    (run h s events).isRecording = true → (run h s events).recognition = true := by
  induction events generalizing s with
  | nil => exact hs
  | cons e rest ih =>
    unfold run
    simp only [List.foldl_cons]
    apply ih
    intro hrec
    obtain ⟨h1, h2⟩ := step_recording h s e
    rw [h1]
    rcases h2 with h2 | ⟨hr, -⟩
    · exact hs (h2 ▸ hrec)
    · exact hr

/-! ## The response of the generation endpoint (C2, C3, C7) -/

/-- C2, as stated, fails: a 200 response whose body is
`{"success": 1, "options": ["a", "b", "c"]}` takes the success path, with the
status text set, although `success` is not the boolean `true`. -/
theorem success_flag_counterexample :
    tookSuccessPath sampleHost initialPage
        (.response 200 (.json (.obj
          [("success", .num (.finite 1)),
           ("options", .arr [.str "a", .str "b", .str "c"])]))) = true ∧
    (generateResponsesSettle sampleHost initialPage
        (.response 200 (.json (.obj
          [("success", .num (.finite 1)),
           ("options", .arr [.str "a", .str "b", .str "c"])])))).statusText
      = "请选择回复选项" ∧
    Obj.read [("success", .num (.finite 1)),
              ("options", .arr [.str "a", .str "b", .str "c"])] "success"
      ≠ .bool true := by
  refine ⟨rfl, rfl, ?_⟩
  have hread : Obj.read [("success", JSVal.num (.finite 1)),
      ("options", .arr [.str "a", .str "b", .str "c"])] "success"
      = .num (.finite 1) := rfl
  rw [hread]
  intro hc
  cases hc

/-- C2, amended: `generateResponses` takes the success path exactly when the
status is 2xx, the body is a JSON object whose `success` field is truthy and
whose `options` field is an array of exactly 3 elements, each of which the
assignment `textContent = option` can turn into text.  On the success path the
three texts are displayed and the status text is '请选择回复选项'; every other
response ends in the `catch` block, with the failure status text and the
fallback options.  Every string, number and boolean and `null` can be turned
into text; an object with a property `toString` cannot. -/
theorem success_path_iff (h : Host) (s : Page) (r : FetchOutcome) :
    (tookSuccessPath h s r = true ↔
      ∃ status fields items,
        r = .response status (.json (.obj fields)) ∧ responseOk status = true ∧
        truthy (Obj.read fields "success") = true ∧
        Obj.read fields "options" = .arr items ∧ items.length = 3 ∧
        ∀ x ∈ items, ∃ t, h.textContent x = .ok t) ∧
    (tookSuccessPath h s r = true →
      ∃ status fields a b c ta tb tc,
        r = .response status (.json (.obj fields)) ∧
        Obj.read fields "options" = .arr [a, b, c] ∧
        h.textContent a = .ok ta ∧ h.textContent b = .ok tb ∧
        h.textContent c = .ok tc ∧
        (generateResponsesSettle h s r).option0.text = ta ∧
        (generateResponsesSettle h s r).option1.text = tb ∧
        (generateResponsesSettle h s r).option2.text = tc ∧
        (generateResponsesSettle h s r).optionsDisplay = "block" ∧
        (generateResponsesSettle h s r).statusText = "请选择回复选项") ∧
    (tookSuccessPath h s r = false →
      ∃ m,
        (generateResponsesSettle h s r).statusText = "生成回复失败: " ++ m ∧
        (generateResponsesSettle h s r).option0.text = "好的，我理解了。" ∧
        (generateResponsesSettle h s r).option1.text = "没问题，我知道你的意思。" ∧
        (generateResponsesSettle h s r).option2.text = "明白了，我会注意的。" ∧
        (generateResponsesSettle h s r).optionsDisplay = "block") ∧
    ((∀ x : String, h.textContent (.str x) = .ok x) ∧
      h.textContent .null = .ok "" ∧
      (∀ b, ∃ t, h.textContent (.bool b) = .ok t) ∧
      (∀ n, ∃ t, h.textContent (.num n) = .ok t) ∧
      (∀ fields v, Obj.get fields "toString" = some v →
        h.textContent (.obj fields) = .error h.notPrimitiveMessage)) := by
  refine ⟨⟨?_, ?_⟩, ?_, ?_, ?_⟩
  · intro ht
    have hn : (generateResponsesTry h s r).2 = none := by
      unfold tookSuccessPath at ht
      cases hr : (generateResponsesTry h s r).2 with
      | none => rfl
      | some m => simp [hr] at ht
    obtain ⟨status, fields, items, h1, h2, h3, h4, h5, h6⟩ :=
      (generateResponsesTry_none_iff h s r).mp hn
    refine ⟨status, fields, items, h1, h2, h3, h4, h5, ?_⟩
    obtain ⟨a, b, c, rfl⟩ := length_eq_three items h5
    obtain ⟨ha, hb, hc⟩ := (displayOptions_three_none_iff h s a b c).mp h6
    intro x hx
    simp only [List.mem_cons, List.mem_singleton, List.not_mem_nil, or_false] at hx
    rcases hx with rfl | rfl | rfl
    · exact ha
    · exact hb
    · exact hc
  · rintro ⟨status, fields, items, h1, h2, h3, h4, h5, h6⟩
    obtain ⟨a, b, c, rfl⟩ := length_eq_three items h5
    have hd : (displayOptions h s [a, b, c]).2 = none :=
      (displayOptions_three_none_iff h s a b c).mpr
        ⟨h6 a (by simp), h6 b (by simp), h6 c (by simp)⟩
    have hn := (generateResponsesTry_none_iff h s r).mpr
      ⟨status, fields, [a, b, c], h1, h2, h3, h4, h5, hd⟩
    simp [tookSuccessPath, hn]
  · intro ht
    have hn : (generateResponsesTry h s r).2 = none := by
      unfold tookSuccessPath at ht
      cases hr : (generateResponsesTry h s r).2 with
      | none => rfl
      | some m => simp [hr] at ht
    obtain ⟨status, fields, items, h1, h2, h3, h4, h5, h6⟩ :=
      (generateResponsesTry_none_iff h s r).mp hn
    obtain ⟨a, b, c, rfl⟩ := length_eq_three items h5
    obtain ⟨⟨ta, ha⟩, ⟨tb, hb⟩, ⟨tc, hc⟩⟩ :=
      (displayOptions_three_none_iff h s a b c).mp h6
    refine ⟨status, fields, a, b, c, ta, tb, tc, h1, h4, ha, hb, hc, ?_⟩
    subst h1
    have ht2 := generateResponsesTry_of_valid h s status fields [a, b, c] h2 h3 h4 h5 h6
    rw [generateResponsesSettle_of_ok h s _ _ ht2,
      displayOptions_three_ok h s a b c ta tb tc ha hb hc]
    exact ⟨rfl, rfl, rfl, rfl, rfl⟩
  · intro ht
    cases hr : generateResponsesTry h s r with
    | mk s1 thrown =>
      cases thrown with
      | none => simp [tookSuccessPath, hr] at ht
      | some m =>
        refine ⟨m, ?_⟩
        rw [generateResponsesSettle_of_error h s r s1 m hr, displayOptions_fallback]
        exact ⟨rfl, rfl, rfl, rfl, rfl⟩
  · refine ⟨fun x => rfl, rfl, fun b => ⟨_, rfl⟩, fun n => ⟨_, rfl⟩, ?_⟩
    intro fields v hv
    simp [Host.textContent, Host.toStr, hv]

/-- C2, witness: the 200 response `{"success": 1, "options": ["a","b","c"]}`
takes the success path and shows "a", "b", "c"; the 200 response
`{"success": true, "options": ["a", {"toString": 1}, "c"]}` ends in the
`catch` block, with the fallback options. -/
theorem success_path_iff_witness :
    (∃ status fields a b c ta tb tc,
      FetchOutcome.response 200 (.json (.obj
          [("success", .num (.finite 1)),
           ("options", .arr [.str "a", .str "b", .str "c"])]))
        = .response status (.json (.obj fields)) ∧
      Obj.read fields "options" = .arr [a, b, c] ∧
      sampleHost.textContent a = .ok ta ∧ sampleHost.textContent b = .ok tb ∧
      sampleHost.textContent c = .ok tc ∧
      (generateResponsesSettle sampleHost initialPage
          (.response 200 (.json (.obj
            [("success", .num (.finite 1)),
             ("options", .arr [.str "a", .str "b", .str "c"])])))).option0.text = ta ∧
      (generateResponsesSettle sampleHost initialPage
          (.response 200 (.json (.obj
            [("success", .num (.finite 1)),
             ("options", .arr [.str "a", .str "b", .str "c"])])))).option1.text = tb ∧
      (generateResponsesSettle sampleHost initialPage
          (.response 200 (.json (.obj
            [("success", .num (.finite 1)),
             ("options", .arr [.str "a", .str "b", .str "c"])])))).option2.text = tc ∧
      (generateResponsesSettle sampleHost initialPage
          (.response 200 (.json (.obj
            [("success", .num (.finite 1)),
             ("options", .arr [.str "a", .str "b", .str "c"])])))).optionsDisplay
        = "block" ∧
      (generateResponsesSettle sampleHost initialPage
          (.response 200 (.json (.obj
            [("success", .num (.finite 1)),
             ("options", .arr [.str "a", .str "b", .str "c"])])))).statusText
        = "请选择回复选项") ∧
    (∃ m,
      (generateResponsesSettle sampleHost initialPage
          (.response 200 (.json (.obj
            [("success", .bool true),
             ("options", .arr
               [.str "a", .obj [("toString", .num (.finite 1))], .str "c"])])))).statusText
        = "生成回复失败: " ++ m ∧
      (generateResponsesSettle sampleHost initialPage
          (.response 200 (.json (.obj
            [("success", .bool true),
             ("options", .arr
               [.str "a", .obj [("toString", .num (.finite 1))], .str "c"])])))).option0.text
        = "好的，我理解了。" ∧
      (generateResponsesSettle sampleHost initialPage
          (.response 200 (.json (.obj
            [("success", .bool true),
             ("options", .arr
               [.str "a", .obj [("toString", .num (.finite 1))], .str "c"])])))).option1.text
        = "没问题，我知道你的意思。" ∧
      (generateResponsesSettle sampleHost initialPage
          (.response 200 (.json (.obj
            [("success", .bool true),
             ("options", .arr
               [.str "a", .obj [("toString", .num (.finite 1))], .str "c"])])))).option2.text
        = "明白了，我会注意的。" ∧
      (generateResponsesSettle sampleHost initialPage
          (.response 200 (.json (.obj
            [("success", .bool true),
             ("options", .arr
               [.str "a", .obj [("toString", .num (.finite 1))], .str "c"])])))).optionsDisplay
        = "block") :=
  ⟨(success_path_iff sampleHost initialPage _).2.1 rfl,
   (success_path_iff sampleHost initialPage _).2.2.1 rfl⟩

/-- C3: whenever the request fails in transport, the status is not 2xx, the
body is malformed, `success` is `false` or `options` does not have exactly 3
entries (and, more generally, whenever the success path is not taken),
`generateResponses` ends with the slots 0, 1, 2 showing the three fallback
strings in order, the options container visible, the loading overlay hidden
and the status text '生成回复失败: ' followed by the message of the caught
error. -/
theorem failure_shows_fallback (h : Host) (s : Page) (r : FetchOutcome)
    (hr : listedFailure r = true ∨ tookSuccessPath h s r = false) :
    ∃ detail,
      errorDetail h s r = some detail ∧
      (generateResponsesSettle h s r).option0.text = "好的，我理解了。" ∧
      (generateResponsesSettle h s r).option1.text = "没问题，我知道你的意思。" ∧
      (generateResponsesSettle h s r).option2.text = "明白了，我会注意的。" ∧
      (generateResponsesSettle h s r).optionsDisplay = "block" ∧
      (generateResponsesSettle h s r).statusText = "生成回复失败: " ++ detail ∧
      (generateResponsesSettle h s r).loadingDisplay = "none" := by
  have hf : tookSuccessPath h s r = false := by
    cases hr with
    | inl hl => exact listedFailure_fails h s r hl
    | inr hf => exact hf
  cases ht : generateResponsesTry h s r with
  | mk s1 thrown =>
    cases thrown with
    | none => simp [tookSuccessPath, ht] at hf
    | some m =>
      refine ⟨m, by simp [errorDetail, ht], ?_⟩
      rw [generateResponsesSettle_of_error h s r s1 m ht, displayOptions_fallback]
      exact ⟨rfl, rfl, rfl, rfl, rfl, rfl⟩

/-- C3, witness: one whole call on the initial page, answered by a 500
response with an unreadable body. -/
theorem failure_shows_fallback_witness :
    listedFailure (.response 500 (.malformed "Unexpected token")) = true ∧
    (generateResponses sampleHost initialPage "hi" []
      (.response 500 (.malformed "Unexpected token"))).option0.text
        = "好的，我理解了。" ∧
    (generateResponses sampleHost initialPage "hi" []
      (.response 500 (.malformed "Unexpected token"))).option2.text
        = "明白了，我会注意的。" ∧
    (generateResponses sampleHost initialPage "hi" []
      (.response 500 (.malformed "Unexpected token"))).optionsDisplay = "block" ∧
    (generateResponses sampleHost initialPage "hi" []
      (.response 500 (.malformed "Unexpected token"))).statusText
        = "生成回复失败: HTTP error! status: 500" :=
  match failure_shows_fallback sampleHost
      { generateResponsesSend initialPage "hi" [] with
        inFlight := (generateResponsesSend initialPage "hi" []).inFlight - 1 }
      (.response 500 (.malformed "Unexpected token")) (Or.inl rfl) with
  | ⟨_, _, h0, _, h2, hd, _, _⟩ => ⟨rfl, h0, h2, hd, rfl⟩

/-- C7: for a 2xx response whose body has `success` true and `options`
`[a, b, c]`, three strings, `generateResponses` ends with slot 0 showing `a`,
slot 1 `b` and slot 2 `c`, each slot's click handler selecting its own index,
the options container visible, the loading overlay hidden and the status text
'请选择回复选项'. -/
theorem success_displays_options (h : Host) (s : Page) (status : Nat) (fields : Obj)
    (a b c : String) (hok : responseOk status = true)
    (hs : Obj.read fields "success" = .bool true)
    (ho : Obj.read fields "options" = .arr [.str a, .str b, .str c]) :
    (generateResponsesSettle h s (.response status (.json (.obj fields)))).option0.text
      = a ∧
    (generateResponsesSettle h s (.response status (.json (.obj fields)))).option1.text
      = b ∧
    (generateResponsesSettle h s (.response status (.json (.obj fields)))).option2.text
      = c ∧
    (∀ i, i < 3 →
      optionClick
          (generateResponsesSettle h s (.response status (.json (.obj fields)))) i
        = selectOption
          (generateResponsesSettle h s (.response status (.json (.obj fields)))) i) ∧
    (generateResponsesSettle h s (.response status (.json (.obj fields)))).optionsDisplay
      = "block" ∧
    (generateResponsesSettle h s (.response status (.json (.obj fields)))).loadingDisplay
      = "none" ∧
    (generateResponsesSettle h s (.response status (.json (.obj fields)))).statusText
      = "请选择回复选项" := by
  have hs' : truthy (Obj.read fields "success") = true := by rw [hs]; rfl
  have hd : displayOptions h s [.str a, .str b, .str c] = _ :=
    displayOptions_three_ok h s (.str a) (.str b) (.str c) a b c rfl rfl rfl
  have ht := generateResponsesTry_of_valid h s status fields _ hok hs' ho rfl
    (by rw [hd])
  rw [generateResponsesSettle_of_ok h s _ _ ht, hd]
  refine ⟨rfl, rfl, rfl, ?_, rfl, rfl, rfl⟩
  intro i hi
  interval_cases i <;> rfl

/-- C7, witness: one whole call on the initial page, answered by the 200
response `{"success": true, "options": ["a", "b", "c"]}`. -/
theorem success_displays_options_witness :
    (generateResponses sampleHost initialPage "hi" []
      (.response 200 (.json (.obj
        [("success", .bool true),
         ("options", .arr [.str "a", .str "b", .str "c"])])))).option0.text = "a" ∧
    (generateResponses sampleHost initialPage "hi" []
      (.response 200 (.json (.obj
        [("success", .bool true),
         ("options", .arr [.str "a", .str "b", .str "c"])])))).option2.text = "c" ∧
    (generateResponses sampleHost initialPage "hi" []
      (.response 200 (.json (.obj
        [("success", .bool true),
         ("options", .arr [.str "a", .str "b", .str "c"])])))).statusText
      = "请选择回复选项" :=
  have w := success_displays_options sampleHost
    { generateResponsesSend initialPage "hi" [] with
      inFlight := (generateResponsesSend initialPage "hi" []).inFlight - 1 }
    200
    [("success", .bool true), ("options", .arr [.str "a", .str "b", .str "c"])]
    "a" "b" "c" (by decide) rfl rfl
  ⟨w.1, w.2.2.1, w.2.2.2.2.2.2⟩

/-! ## The request body (C1, C4) -/

/-- C1: the body posted by `generateResponses` is meant to be the merge
`{message: transcript} < apiConfig < customParams` without its `null` and
`undefined` values, so that no key of the body is `null`.  After
`updateAPIConfig({temperature: 0.7})` the body of `generateResponses("hi", {})`
is `{message: "hi", temperature: 0.7}`, as claimed.  After
`updateAPIConfig({temperature: NaN})` the deletion loop keeps `temperature`,
whose value is neither `null` nor `undefined`, and `JSON.stringify` writes it
as `null`: the body is `{message: "hi", temperature: null}`. -/
theorem nan_is_posted_as_null :
    (generateResponsesSend
        (updateAPIConfig initialPage [("temperature", .num (.finite (7 / 10)))])
        "hi" []).requests
      = [[("message", .str "hi"), ("temperature", .num (.finite (7 / 10)))]] ∧
    buildPayload (updateAPIConfig initialPage [("temperature", .num .nan)]).apiConfig
        (.str "hi") []
      = [("message", .str "hi"), ("temperature", .num .nan)] ∧
    (generateResponsesSend
        (updateAPIConfig initialPage [("temperature", .num .nan)]) "hi" []).requests
      = [[("message", .str "hi"), ("temperature", .null)]] ∧
    Obj.get [("message", JSVal.str "hi"), ("temperature", JSVal.null)] "temperature"
      = some .null :=
  ⟨rfl, rfl, rfl, rfl⟩

/-- C4, as stated, fails: after `updateAPIConfig({message: "bye"})` on the
initial page, the body posted for the transcript "hi" is `{message: "bye"}`:
its `message` is not the transcript. -/
theorem message_field_counterexample :
    (generateResponsesSend
        (updateAPIConfig initialPage [("message", .str "bye")]) "hi" []).requests
      = [[("message", .str "bye")]] ∧
    Obj.get [("message", JSVal.str "bye")] "message" ≠ some (.str "hi") := by
  refine ⟨rfl, ?_⟩
  have hget : Obj.get [("message", JSVal.str "bye")] "message"
      = some (.str "bye") := rfl
  rw [hget]
  intro hc
  injection hc with hc
  injection hc with hc
  exact absurd hc (by decide)

/-- C4, amended: when no `updateAPIConfig` patch and not the overrides object
has a key `message`, the posted body has the field `message` and its value is
the transcript. -/
theorem message_field_is_transcript
    (s : Page) (patches : List Obj) (message : String) (customParams : Obj)
    (hs : s.apiConfig = applyPatches initialApiConfig patches)
    (hp : ∀ p ∈ patches, p.get "message" = none)
    (hcp : customParams.get "message" = none) :
    ∃ body : Obj,
      (generateResponsesSend s message customParams).requests = s.requests ++ [body] ∧
      body.get "message" = some (.str message) := by
  refine ⟨_, generateResponsesSend_requests s message customParams, ?_⟩
  have hcfg : s.apiConfig.get "message" = none := by
    rw [hs, applyPatches_get_of_not_mem _ _ _ hp]
    rfl
  have hpay : (buildPayload s.apiConfig (.str message) customParams).get "message"
      = some (.str message) := by
    unfold buildPayload
    rw [stripNullish_get]
    unfold mergedPayload
    rw [Obj.get_spread_of_not_mem _ _ _ hcp, Obj.get_spread_of_not_mem _ _ _ hcfg]
    simp [Obj.get, isNullish]
  exact jsonOfFields_get _ "message" _ _ hpay rfl

/-- C4, witness: one patch `{temperature: 0.7}`, transcript "hi", no
overrides. -/
theorem message_field_is_transcript_witness :
    ∃ body : Obj,
      (generateResponsesSend
          { initialPage with
            apiConfig := applyPatches initialApiConfig
              [[("temperature", .num (.finite (7 / 10)))]] }
          "hi" []).requests = initialPage.requests ++ [body] ∧
      body.get "message" = some (.str "hi") :=
  message_field_is_transcript
    { initialPage with
      apiConfig := applyPatches initialApiConfig
        [[("temperature", .num (.finite (7 / 10)))]] }
    [[("temperature", .num (.finite (7 / 10)))]] "hi" [] rfl
    (by
      intro p hp
      simp only [List.mem_singleton] at hp
      subst hp
      rfl)
    rfl

/-! ## Selection and automatic reset (C6, C8, C9) -/

/-- C6: for `i` in {0,1,2} and any prior page, after `selectOption(i)` slot
`i` is selected and no other slot is; a later `selectOption(j)` with `j ≠ i`
leaves `j` selected and `i` not.  So after any sequence of `selectOption` and
`clearPreviousResults` calls at most one slot is selected, and
`clearPreviousResults` leaves none selected. -/
theorem selection_is_exclusive (s : Page) :
    (∀ i, i < 3 → ∀ k, k < 3 →
      ((selectOption s i).optionItem k).map Slot.selected = some (decide (k = i))) ∧
    (∀ i j, i < 3 → j < 3 → j ≠ i →
      ((selectOption (selectOption s i) j).optionItem j).map Slot.selected = some true ∧
      ((selectOption (selectOption s i) j).optionItem i).map Slot.selected = some false) ∧
    (∀ calls, calls ≠ [] → (applyCalls s calls).selectedCount ≤ 1) ∧
    (∀ calls, s.selectedCount ≤ 1 → (applyCalls s calls).selectedCount ≤ 1) ∧
    (clearPreviousResults s).selectedCount = 0 := by
  refine ⟨?_, ?_, ?_, ?_, rfl⟩
  · intro i hi k hk
    interval_cases i <;> interval_cases k <;> rfl
  · intro i j hi hj hij
    interval_cases i <;> interval_cases j <;> first
      | exact absurd rfl hij
      | exact ⟨rfl, rfl⟩
  · intro calls hne
    cases calls with
    | nil => exact absurd rfl hne
    | cons c rest =>
      unfold applyCalls
      simp only [List.foldl_cons]
      apply applyCalls_selectedCount
      cases c with
      | selectOption index => exact selectOption_selectedCount s index
      | clearPreviousResults =>
        show (clearPreviousResults s).selectedCount ≤ 1
        rw [clearPreviousResults_selectedCount]
        exact Nat.zero_le 1
  · intro calls hs
    exact applyCalls_selectedCount calls s hs

/-- C6, witness: on a page with all three slots marked, `selectOption(0)`
then `selectOption(2)` leaves slot 2 selected alone. -/
theorem selection_is_exclusive_witness :
    ((selectOption (selectOption
        { initialPage with
          option0 := { initialPage.option0 with selected := true },
          option1 := { initialPage.option1 with selected := true },
          option2 := { initialPage.option2 with selected := true } } 0) 2).optionItem 2).map
        Slot.selected = some true ∧
    ((selectOption (selectOption
        { initialPage with
          option0 := { initialPage.option0 with selected := true },
          option1 := { initialPage.option1 with selected := true },
          option2 := { initialPage.option2 with selected := true } } 0) 2).optionItem 0).map
        Slot.selected = some false :=
  (selection_is_exclusive
    { initialPage with
      option0 := { initialPage.option0 with selected := true },
      option1 := { initialPage.option1 with selected := true },
      option2 := { initialPage.option2 with selected := true } }).2.1 0 2
    (by decide) (by decide) (by decide)

/-- C8: for `i` in {0,1,2}, `selectOption(i)` schedules the reset task 3000 ms
ahead.  While less than 3000 ms have passed the task cannot run, and the page
still shows slot `i` selected and the status '已选择：' followed by the
slot's text; once 3000 ms have passed the task runs, and then the transcript
display is empty, the options container is hidden, no slot is selected and
the status is '等待识别语音...'. -/
theorem selectOption_resets_after_delay (s : Page) (i : Nat) (hi : i < 3) :
    (selectOption s i).timers = s.timers ++ [{ due := s.now + 3000 }] ∧
    (∃ item, s.optionItem i = some item ∧
      (selectOption s i).statusText = "已选择：" ++ item.text) ∧
    (∀ d, d < 3000 →
      fireTimer (elapse (selectOption s i) d) s.timers.length = none ∧
      (∀ k, k < 3 → ((elapse (selectOption s i) d).optionItem k).map Slot.selected
        = some (decide (k = i))) ∧
      (elapse (selectOption s i) d).statusText = (selectOption s i).statusText ∧
      (elapse (selectOption s i) d).transcribedText = s.transcribedText ∧
      (elapse (selectOption s i) d).optionsDisplay = s.optionsDisplay) ∧
    (∀ d, 3000 ≤ d →
      ∃ s2, fireTimer (elapse (selectOption s i) d) s.timers.length = some s2 ∧
        s2.transcribedText = "" ∧ s2.optionsDisplay = "none" ∧
        s2.selectedCount = 0 ∧ s2.statusText = "等待识别语音..." ∧
        s2.timers = s.timers) := by
  obtain ⟨ht, hn⟩ := selectOption_timers s i hi
  refine ⟨ht, ?_, ?_, ?_⟩
  · interval_cases i
    · exact ⟨s.option0, rfl, rfl⟩
    · exact ⟨s.option1, rfl, rfl⟩
    · exact ⟨s.option2, rfl, rfl⟩
  · intro d hd
    refine ⟨?_, ?_, rfl, ?_, ?_⟩
    · unfold fireTimer
      have hg : (elapse (selectOption s i) d).timers.get? s.timers.length
          = some { due := s.now + 3000 } := by
        show (selectOption s i).timers.get? s.timers.length = _
        rw [ht]
        exact timers_get_last _ _
      rw [hg]
      have hnow : (elapse (selectOption s i) d).now = s.now + d := by
        show (selectOption s i).now + d = s.now + d
        rw [hn]
      simp only [hnow]
      rw [if_neg (by omega)]
    · intro k hk
      interval_cases i <;> interval_cases k <;> rfl
    · interval_cases i <;> rfl
    · interval_cases i <;> rfl
  · intro d hd
    have hg : (elapse (selectOption s i) d).timers.get? s.timers.length
        = some { due := s.now + 3000 } := by
      show (selectOption s i).timers.get? s.timers.length = _
      rw [ht]
      exact timers_get_last _ _
    have hnow : (elapse (selectOption s i) d).now = s.now + d := by
      show (selectOption s i).now + d = s.now + d
      rw [hn]
    refine ⟨autoReset { elapse (selectOption s i) d with
      timers := (elapse (selectOption s i) d).timers.eraseIdx s.timers.length },
      ?_, rfl, rfl, rfl, rfl, ?_⟩
    · unfold fireTimer
      rw [hg]
      simp only [hnow]
      rw [if_pos (by omega)]
    · show ((selectOption s i).timers).eraseIdx s.timers.length = s.timers
      rw [ht]
      exact timers_erase_last _ _

/-- C8, witness: key "2" on the initial page, then 2999 ms and 3000 ms. -/
theorem selectOption_resets_after_delay_witness :
    fireTimer (elapse (selectOption initialPage 1) 2999) 0 = none ∧
    ∃ s2, fireTimer (elapse (selectOption initialPage 1) 3000) 0 = some s2 ∧
      s2.selectedCount = 0 ∧ s2.statusText = "等待识别语音..." :=
  have w := selectOption_resets_after_delay initialPage 1 (by decide)
  ⟨(w.2.2.1 2999 (by decide)).1,
   match w.2.2.2 3000 (by decide) with
   | ⟨s2, hf, _, _, hc, hst, _⟩ => ⟨s2, hf, hc, hst⟩⟩

/-- C9: the automatic reset touches display state only.  In whatever state
it fires, also in one where a new recording has started meanwhile, it leaves
`isRecording`, the recognizer handle and the API configuration unchanged and
makes no call on the recognizer; and pending timers do not change what
`toggleRecording` does: from Idle it still clears the previous results and
starts the recognizer. -/
theorem autoReset_touches_display_only (s : Page) (pending : List Timer) :
    ((autoReset s).isRecording = s.isRecording ∧
      (autoReset s).recognition = s.recognition ∧
      (autoReset s).apiConfig = s.apiConfig ∧
      (autoReset s).recognizerCalls = s.recognizerCalls) ∧
    (∀ k s1, fireTimer s k = some s1 →
      s1.isRecording = s.isRecording ∧ s1.recognition = s.recognition ∧
      s1.apiConfig = s.apiConfig ∧ s1.recognizerCalls = s.recognizerCalls) ∧
    toggleRecording { s with timers := pending }
      = { toggleRecording s with timers := pending } ∧
    (s.recognition = true → s.isRecording = false →
      toggleRecording { s with timers := pending }
        = { clearPreviousResults { s with timers := pending } with
            recognizerCalls := s.recognizerCalls ++ [RecCall.start] }) := by
  refine ⟨⟨rfl, rfl, rfl, rfl⟩, ?_, ?_, ?_⟩
  · intro k s1 hf
    have hc := fireTimer_control s k s1 hf
    simp only [Page.control, Prod.mk.injEq] at hc
    exact ⟨hc.2.1, hc.1, hc.2.2.1, hc.2.2.2⟩
  · unfold toggleRecording
    dsimp only
    split
    · rfl
    · split <;> rfl
  · intro hr hi
    simp [toggleRecording, hr, hi]
    rfl

/-- C9, witness: key "1" selects slot 0, a click starts a new recording and
the recognizer reports its start; 3000 ms later the reset fires and the page
is still recording, with `start` the only call made on the recognizer. -/
theorem autoReset_touches_display_only_witness :
    ∃ s1,
      fireTimer
        (run sampleHost initialPage
          [.keydown "1", .click, .onstart, .elapse 3000]) 0 = some s1 ∧
      s1.isRecording = true ∧ s1.recognizerCalls = [RecCall.start] ∧
      s1.statusText = "等待识别语音..." :=
  ⟨autoReset
      { run sampleHost initialPage [.keydown "1", .click, .onstart, .elapse 3000] with
        timers := [] },
    rfl,
    ((autoReset_touches_display_only
        (run sampleHost initialPage [.keydown "1", .click, .onstart, .elapse 3000])
        []).2.1 0 _ rfl).1.trans rfl,
    rfl, rfl⟩

/-! ## Recording state and the toggle control (C5, C10) -/

/-- C5: along every sequence of events from an Idle page (clicks, that is
`toggleRecording` calls, the recognizer's notifications, and all the rest),
`toggleRecording` called while Recording only asks the recognizer to stop: it
makes the one call `stop`, changes nothing else, and in no state changes
`isRecording`.  The state enters Recording only from Idle on the recognizer's
start notification, and leaves it only on its error or end notification. -/
theorem recording_alternates (h : Host) (s0 : Page) (events : List Event)
    (h0 : s0.isRecording = false) :
    ((run h s0 events).isRecording = true →
      toggleRecording (run h s0 events)
        = { run h s0 events with
            recognizerCalls := (run h s0 events).recognizerCalls ++ [RecCall.stop] }) ∧
    (toggleRecording (run h s0 events)).isRecording = (run h s0 events).isRecording ∧
    (∀ e, (run h s0 events).isRecording = false →
      (step h (run h s0 events) e).isRecording = true → e = .onstart) ∧
    (∀ e, (run h s0 events).isRecording = true →
      (step h (run h s0 events) e).isRecording = false →
      e = .onend ∨ ∃ c, e = .onerror c) := by
  have hinv := run_recording_inv h events s0 (by rw [h0]; intro hc; cases hc)
  refine ⟨?_, toggleRecording_isRecording _, ?_, ?_⟩
  · intro hrec
    have hr := hinv hrec
    simp [toggleRecording, hr, hrec]
  · intro e hidle hrec
    rcases (step_recording h (run h s0 events) e).2 with hsame | ⟨-, ⟨he, -⟩ | ⟨-, hf⟩⟩
    · rw [hsame, hidle] at hrec
      cases hrec
    · exact he
    · rw [hf] at hrec
      cases hrec
  · intro e hrec hidle
    rcases (step_recording h (run h s0 events) e).2 with hsame | ⟨-, ⟨-, ht⟩ | ⟨he, -⟩⟩
    · rw [hsame, hrec] at hidle
      cases hidle
    · rw [ht] at hidle
      cases hidle
    · exact he

/-- C5, witness: a click and the recognizer's start notification put the
initial page in Recording; one more toggle adds the call `stop` only. -/
theorem recording_alternates_witness :
    initialPage.isRecording = false ∧
    (run sampleHost initialPage [.click, .onstart]).isRecording = true ∧
    (toggleRecording (run sampleHost initialPage [.click, .onstart])).recognizerCalls
      = [RecCall.start, RecCall.stop] ∧
    (toggleRecording (run sampleHost initialPage [.click, .onstart])).isRecording = true :=
  ⟨rfl, rfl,
   (congrArg Page.recognizerCalls
      ((recording_alternates sampleHost initialPage [.click, .onstart] rfl).1 rfl)).trans rfl,
   rfl⟩

/-- C10, as stated, fails: while Recording, a keydown of the space key makes
no call on the recognizer, whereas a click on the record button stops it. -/
theorem space_key_counterexample :
    (run sampleHost initialPage [.click, .onstart]).isRecording = true ∧
    (step sampleHost (run sampleHost initialPage [.click, .onstart])
        (.keydown " ")).recognizerCalls = [RecCall.start] ∧
    (step sampleHost (run sampleHost initialPage [.click, .onstart])
        .click).recognizerCalls = [RecCall.start, RecCall.stop] :=
  ⟨rfl, rfl, rfl⟩

/-- C10, amended: in a browser with speech recognition (without one the script
stops before it registers its listeners), a click on the record button always
performs `toggleRecording`; a keydown of the space key performs it (and
cancels the key's default action) when the page is Idle, and does nothing
when the page is Recording. -/
theorem space_key_toggles_when_idle (h : Host) (s : Page)
    (hrec : s.recognition = true) :
    step h s .click = toggleRecording s ∧
    (s.isRecording = false →
      keydown s " " = (toggleRecording s, true) ∧
      step h s (.keydown " ") = step h s .click) ∧
    (s.isRecording = true →
      keydown s " " = (s, false) ∧ step h s (.keydown " ") = s) := by
  refine ⟨by simp [step, hrec], ?_, ?_⟩
  · intro hi
    have hk : keydown s " " = (toggleRecording s, true) := by
      simp [keydown, hi]
    exact ⟨hk, by simp [step, hk, hrec]⟩
  · intro hr
    have hk : keydown s " " = (s, false) := by
      simp [keydown, hr]
    exact ⟨hk, by simp [step, hk, hrec]⟩

/-- C10, witness: the space key on the initial page starts the recognizer,
and does nothing more once the page is Recording. -/
theorem space_key_toggles_when_idle_witness :
    initialPage.recognition = true ∧
    (step sampleHost initialPage (.keydown " ")).recognizerCalls = [RecCall.start] ∧
    step sampleHost (run sampleHost initialPage [.keydown " ", .onstart]) (.keydown " ")
      = run sampleHost initialPage [.keydown " ", .onstart] :=
  ⟨rfl,
   (congrArg Page.recognizerCalls
      ((space_key_toggles_when_idle sampleHost initialPage rfl).2.1 rfl).2).trans rfl,
   ((space_key_toggles_when_idle sampleHost
      (run sampleHost initialPage [.keydown " ", .onstart]) rfl).2.2 rfl).2⟩

end App
